import Mathlib

/-!
Verification of the NIP-46 (Nostr Connect) remote-signing session engine of
`src/lib/nip46.ts`: the retry/abort behaviour of `waitForConnection`, the
lifecycle-aware retry wrapper, the session persistence codec
(`serializeSession` / `deserializeSession`), bunker-URI construction and the
signing timeout.

Modelling conventions:
* JavaScript strings are modelled as `String` / `List Char`; byte arrays
  (`Uint8Array`) as `List Nat` with every element `< 256`.
* External capabilities (the `BunkerSigner` transport of nostr-tools, the
  WHATWG `URL` library, `JSON.parse`, the React-Native `AppState` signal) are
  modelled either as explicit function parameters or as faithful executable
  models, each marked in its doc comment.
* Fallible JavaScript code (`throw` caught by a `try`/`catch`) is modelled
  with `Option` / `Except`.
-/

namespace Nip46

/-- ASCII lower-casing: the behaviour of JS `toLowerCase` on the ASCII error
messages classified by `waitForConnection`. -/
def jsToLower (s : List Char) : List Char := s.map Char.toLower

/-- `startsWith pat s` is true when `pat` is a leading segment of `s`. -/
def startsWith : List Char → List Char → Bool
  | [], _ => true
  | _ :: _, [] => false
  | a :: pat, b :: s => a == b && startsWith pat s

/-- JS `String.prototype.includes`: `pat` occurs contiguously in `s`. -/
def containsSub (s pat : List Char) : Bool :=
  startsWith pat s ||
    match s with
    | [] => false
    | _ :: rest => containsSub rest pat

/-- The recoverability classification of `waitForConnection`
(src/lib/nip46.ts lines 181-185): the lower-cased failure message must contain
one of the four known substrings. -/
def isRecoverable (msg : String) : Bool :=
  containsSub (jsToLower msg.toList) "subscription closed".toList ||
  containsSub (jsToLower msg.toList) "connection".toList ||
  containsSub (jsToLower msg.toList) "websocket".toList ||
  containsSub (jsToLower msg.toList) "timeout".toList

/-- Outcome of a single `attemptConnection` call, as produced by the injected
transport (`BunkerSigner.fromURI` followed by `signer.getPublicKey()`): either
the learned user pubkey or a thrown error message. -/
inductive ConnResult where
  | ok (userPubkey : String)
  | err (msg : String)
deriving DecidableEq

/-- Observable step of the `waitForConnection` loop: a `setTimeout` sleep of
`ms` milliseconds, or the `i`-th call of `attemptConnection`. -/
inductive WaitEvent where
  | delay (ms : Nat)
  | attempt (i : Nat)
deriving DecidableEq

/-- Settlement of the promise returned by `waitForConnection`. -/
inductive WaitResult where
  | success (pk : String)
  | failure (msg : String)
deriving DecidableEq

/-- Message of the error thrown at the post-delay abort check. -/
def connectionAbortedMsg : String := "Connection aborted"

/-- Message of the error thrown when the loop exits with no recorded error. -/
def maxRetriesMsg : String := "Connection failed after maximum retries"

/-- One iteration step of the retry loop of `waitForConnection`
(src/lib/nip46.ts lines 166-190), as a function of the transport behaviour
`attempts` (the result of the `i`-th `attemptConnection` call) and of the
abort flag `ab`, read at successive checkpoints: the loop guard reads
`ab (3*attempt)`, the post-delay check reads `ab (3*attempt+1)`, and the
check inside the catch block reads `ab (3*attempt+2)`.  The result carries
the trace of delays and `attemptConnection` calls performed. -/
def waitGo (attempts : Nat → ConnResult) (ab : Nat → Bool) :
    Nat → Nat → Option String → WaitResult × List WaitEvent
  | 0, _, lastError => (.failure (lastError.getD maxRetriesMsg), [])
  | fuel + 1, attempt, lastError =>
    if ab (3 * attempt) then
      -- loop guard `attempt < maxRetries && !this.isAborted` fails
      (.failure (lastError.getD maxRetriesMsg), [])
    else
      -- on attempt > 0: `this.signer = null` and a 1500 ms `setTimeout` sleep
      let delays : List WaitEvent := if attempt == 0 then [] else [.delay 1500]
      if ab (3 * attempt + 1) then
        -- `if (this.isAborted) throw new Error('Connection aborted')` inside
        -- the try block: caught below, classified, and rethrown in the catch
        if !isRecoverable connectionAbortedMsg || ab (3 * attempt + 2) then
          (.failure connectionAbortedMsg, delays)
        else
          let next := waitGo attempts ab fuel (attempt + 1) (some connectionAbortedMsg)
          (next.1, delays ++ next.2)
      else
        match attempts attempt with
        | .ok pk => (.success pk, delays ++ [.attempt attempt])
        | .err msg =>
          if !isRecoverable msg || ab (3 * attempt + 2) then
            (.failure msg, delays ++ [.attempt attempt])
          else
            let next := waitGo attempts ab fuel (attempt + 1) (some msg)
            (next.1, delays ++ [.attempt attempt] ++ next.2)

/-- `waitForConnection` (src/lib/nip46.ts lines 166-190): up to `maxRetries =
5` iterations starting from attempt 0 with no recorded error. -/
def waitForConnection (attempts : Nat → ConnResult) (ab : Nat → Bool) :
    WaitResult × List WaitEvent :=
  waitGo attempts ab 5 0 none

/-- The abort flag is never set during the call. -/
def noAbort : Nat → Bool := fun _ => false

def isAttemptEv : WaitEvent → Bool
  | .attempt _ => true
  | .delay _ => false

def countAttempts (evs : List WaitEvent) : Nat := (evs.filter isAttemptEv).length

/-- Trace contribution of the loop iteration running attempt `a`: a 1500 ms
delay before every attempt other than attempt 0, then the attempt itself. -/
def attemptStep (a : Nat) : List WaitEvent :=
  (if a == 0 then ([] : List WaitEvent) else [.delay 1500]) ++ [.attempt a]

/-- Trace of the loop when attempts `a, a+1, …, a+k` all run. -/
def traceUpTo : Nat → Nat → List WaitEvent
  | a, 0 => attemptStep a
  | a, k + 1 => attemptStep a ++ traceUpTo (a + 1) k

/-- Hexadecimal digit characters accepted by JS `parseInt(·, 16)`. -/
def isHexDigitChar (c : Char) : Bool :=
  ('0' ≤ c && c ≤ '9') || ('a' ≤ c && c ≤ 'f') || ('A' ≤ c && c ≤ 'F')

/-- Value of a hexadecimal digit character. -/
def hexVal (c : Char) : Nat :=
  if c ≤ '9' then c.toNat - 48 else if c ≤ 'F' then c.toNat - 55 else c.toNat - 87

/-- Whitespace skipped by JS `parseInt` (ASCII part). -/
def jsWhitespace (c : Char) : Bool :=
  c == ' ' || c == Char.ofNat 9 || c == Char.ofNat 10 || c == Char.ofNat 11 ||
  c == Char.ofNat 12 || c == Char.ofNat 13

/-- Model of JS `parseInt(s, 16)`: skip whitespace, optional sign, optional
`0x`/`0X` radix prefix, then the longest leading run of hex digits; `none`
models `NaN` (no digit found).  Notably `parseInt` does NOT reject trailing
garbage, and an invalid pair like `"zz"` yields `NaN`. -/
def jsParseIntHex (s : String) : Option Int :=
  let cs := s.toList.dropWhile jsWhitespace
  let signed : Int × List Char :=
    match cs with
    | '-' :: rest => (-1, rest)
    | '+' :: rest => (1, rest)
    | _ => (1, cs)
  let body : List Char :=
    match signed.2 with
    | '0' :: 'x' :: rest => rest
    | '0' :: 'X' :: rest => rest
    | _ => signed.2
  let digits := body.takeWhile isHexDigitChar
  if digits.isEmpty then none
  else some (signed.1 * digits.foldl (fun acc c => acc * 16 + (hexVal c : Int)) 0)

/-- Coercion performed by the assignment `bytes[i] = v` into a `Uint8Array`:
`NaN` becomes 0, every other value is reduced modulo 2^8. -/
def toUint8 : Option Int → Nat
  | none => 0
  | some v => (v % 256).toNat

/-- JS `s.substring(a, b)` for `a ≤ b` within bounds. -/
def jsSubstring (s : String) (a b : Nat) : String :=
  String.mk ((s.toList.drop a).take (b - a))

/-- Function `hexToBytes` (src/lib/nip46.ts lines 374-381): throws (`none`) on
odd length, otherwise decodes each two-character slice with `parseInt(·, 16)`
stored through a `Uint8Array` element assignment. -/
def hexToBytes (hex : String) : Option (List Nat) :=
  if hex.length % 2 ≠ 0 then none
  else
    some ((List.range (hex.length / 2)).map fun i =>
      toUint8 (jsParseIntHex (jsSubstring hex (i * 2) (i * 2 + 2))))

/-- JS `b.toString(16).padStart(2, '0')` for a byte value: lowercase hex
digits without leading zeros, left-padded to two characters. -/
def byteToHexList (b : Nat) : List Char :=
  let ds := Nat.toDigits 16 b
  if ds.length < 2 then '0' :: ds else ds

/-- Character list of `bytesToHex` (src/lib/nip46.ts lines 370-372): map each
byte to its padded hex form and join. -/
def bytesToHexList : List Nat → List Char
  | [] => []
  | b :: bs => byteToHexList b ++ bytesToHexList bs

/-- Function `bytesToHex` (src/lib/nip46.ts lines 370-372). -/
def bytesToHex (bytes : List Nat) : String := String.mk (bytesToHexList bytes)

/-- JSON values, as produced by `JSON.parse`.  Numbers are modelled as
integers; no claim in this development depends on non-integer numbers. -/
inductive Json where
  | null
  | bool (b : Bool)
  | num (n : Int)
  | str (s : String)
  | arr (elems : List Json)
  | obj (fields : List (String × Json))

/-- Truthiness (JS) of a parsed JSON value; `NaN` and `-0` cannot be produced
by `JSON.parse`. -/
def jsTruthy : Json → Bool
  | .null => false
  | .bool b => b
  | .num n => n != 0
  | .str s => s != ""
  | .arr _ => true
  | .obj _ => true

/-- Property read on a parsed JSON object; with duplicate keys `JSON.parse`
keeps the last occurrence, so the lookup prefers later fields. -/
def jsonLookup (fields : List (String × Json)) (key : String) : Option Json :=
  match fields with
  | [] => none
  | (k, v) :: rest =>
    match jsonLookup rest key with
    | some v' => some v'
    | none => if k == key then some v else none

/-- Truthiness of a property read (`undefined` is falsy). -/
def jsTruthyOpt : Option Json → Bool
  | none => false
  | some v => jsTruthy v

/-- Interface `NostrConnectSession` (src/lib/nip46.ts lines 30-37); the
private key is a `Uint8Array`, `image` and `bunkerUri` are optional. -/
structure NostrConnectSession where
  clientPrivKey : List Nat
  clientPubKey : String
  connectionString : String
  secret : String
  image : Option String
  bunkerUri : Option String
deriving DecidableEq

/-- Key-value pairs of the object literal
`{ ...session, clientPrivKey: bytesToHex(session.clientPrivKey) }` passed to
`JSON.stringify`; fields holding `undefined` are omitted by `stringify`. -/
def sessionFields (s : NostrConnectSession) : List (String × String) :=
  [("clientPrivKey", bytesToHex s.clientPrivKey),
   ("clientPubKey", s.clientPubKey),
   ("connectionString", s.connectionString),
   ("secret", s.secret)] ++
  (match s.image with | some i => [("image", i)] | none => []) ++
  (match s.bunkerUri with | some b => [("bunkerUri", b)] | none => [])

/-- Opening brace character. -/
def lbrace : Char := Char.ofNat 123

/-- Closing brace character. -/
def rbrace : Char := Char.ofNat 125

/-- Lowercase hexadecimal digit. -/
def hexLowerDigit (n : Nat) : Char :=
  if n < 10 then Char.ofNat (48 + n) else Char.ofNat (87 + n)

/-- JSON string escaping as performed by `JSON.stringify`. -/
def escapeJsonChar (c : Char) : List Char :=
  if c == '"' then ['\\', '"']
  else if c == '\\' then ['\\', '\\']
  else if c == Char.ofNat 8 then ['\\', 'b']
  else if c == Char.ofNat 9 then ['\\', 't']
  else if c == Char.ofNat 10 then ['\\', 'n']
  else if c == Char.ofNat 12 then ['\\', 'f']
  else if c == Char.ofNat 13 then ['\\', 'r']
  else if c.toNat < 32 then
    ['\\', 'u', '0', '0', hexLowerDigit (c.toNat / 16), hexLowerDigit (c.toNat % 16)]
  else [c]

/-- Escape a whole string. -/
def escapeJson (s : String) : List Char := s.toList.flatMap escapeJsonChar

/-- Model of `JSON.stringify` restricted to the flat string-valued objects the
session codec produces. -/
def renderFlatObj (fields : List (String × String)) : String :=
  String.mk ([lbrace] ++
    List.intercalate [','] (fields.map fun kv =>
      '"' :: escapeJson kv.1 ++ ['"', ':', '"'] ++ escapeJson kv.2 ++ ['"']) ++
    [rbrace])

/-- Function `serializeSession` (src/lib/nip46.ts lines 386-391). -/
def serializeSession (session : NostrConnectSession) : String :=
  renderFlatObj (sessionFields session)

/-- The JSON value `JSON.parse` recovers from `serializeSession`'s output. -/
def sessionToJson (s : NostrConnectSession) : Json :=
  .obj ((sessionFields s).map fun kv => (kv.1, .str kv.2))

/-- The object returned by `deserializeSession`: the spread
`{ ...parsed, clientPrivKey: hexToBytes(parsed.clientPrivKey) }`.  Required
fields keep whatever JSON value they carried (the code checks only their
truthiness); unknown extra fields are not tracked (no claim concerns them). -/
structure StoredSession where
  clientPrivKey : List Nat
  clientPubKey : Json
  connectionString : Json
  secret : Json
  image : Option Json
  bunkerUri : Option Json

/-- Function `deserializeSession` (src/lib/nip46.ts lines 396-409) applied to
the value produced by `JSON.parse`.  Returns `none` exactly where the source
returns `null`: a required field absent or falsy; `hexToBytes` throwing (odd
`length`); a non-object input (property access on `null` throws a caught
`TypeError`; on other primitives and on arrays the required properties are
`undefined`, hence falsy); or a truthy non-string `clientPrivKey` (every such
value makes `hexToBytes` throw: a `.length` of `undefined` gives
`NaN % 2 !== 0`, and arrays reaching the loop fail at `.substring`). -/
def deserializeSessionJson : Json → Option StoredSession
  | .obj fields =>
    if !jsTruthyOpt (jsonLookup fields "clientPrivKey") ||
        !jsTruthyOpt (jsonLookup fields "clientPubKey") ||
        !jsTruthyOpt (jsonLookup fields "connectionString") ||
        !jsTruthyOpt (jsonLookup fields "secret") then
      none
    else
      match jsonLookup fields "clientPrivKey" with
      | some (.str hex) =>
        match hexToBytes hex with
        | none => none
        | some key =>
          some
            { clientPrivKey := key,
              clientPubKey := (jsonLookup fields "clientPubKey").getD .null,
              connectionString := (jsonLookup fields "connectionString").getD .null,
              secret := (jsonLookup fields "secret").getD .null,
              image := jsonLookup fields "image",
              bunkerUri := jsonLookup fields "bunkerUri" }
      | _ => none
  | _ => none

/-- Function `deserializeSession` (src/lib/nip46.ts lines 396-409),
parameterised by the external `JSON.parse` (`none` models a parse exception,
caught by the surrounding `try`). -/
def deserializeSession (parse : String → Option Json) (data : String) :
    Option StoredSession :=
  match parse data with
  | none => none
  | some j => deserializeSessionJson j

/-- The stored-session value a faithful round trip must produce from `s`. -/
def storedOfSession (s : NostrConnectSession) : StoredSession :=
  { clientPrivKey := s.clientPrivKey,
    clientPubKey := .str s.clientPubKey,
    connectionString := .str s.connectionString,
    secret := .str s.secret,
    image := s.image.map .str,
    bunkerUri := s.bunkerUri.map .str }

/-- The four NIP-46 relays (src/lib/nip46.ts lines 23-28). -/
def nip46RelaysArray : List String :=
  ["wss://relay.primal.net", "wss://relay.damus.io", "wss://nos.lol",
   "wss://relay.nostr.band"]

/-- Parsed form of a `bunker://` URI (nostr-tools `BunkerPointer`). -/
structure BunkerPointer where
  pubkey : String
  relays : List String
  secret : Option String
deriving DecidableEq

/-- The transport handle held in `this.signer`: which constructor of the
external `BunkerSigner` produced it, and with what peer identity. -/
inductive SignerHandle where
  | fromURI (servicePubkey : String)
  | fromBunker (bp : BunkerPointer)
deriving DecidableEq

/-- Mutable fields of `NostrConnectManager` (src/lib/nip46.ts lines 108-119);
the handler and subscription fields are tracked by presence. -/
structure ManagerState where
  session : NostrConnectSession
  signer : Option SignerHandle
  userPubkey : Option String
  bunkerString : Option String
  isAborted : Bool
  appStateSubscription : Bool
  onAuthHandler : Bool
deriving DecidableEq

/-- The constructor `new NostrConnectManager(session)`. -/
def mkManager (s : NostrConnectSession) : ManagerState :=
  { session := s, signer := none, userPubkey := none, bunkerString := none,
    isAborted := false, appStateSubscription := false, onAuthHandler := false }

/-- Characters `encodeURIComponent` leaves unescaped. -/
def encSafe (c : Char) : Bool :=
  c.isAlpha || c.isDigit || c == '-' || c == '_' || c == '.' || c == '!' ||
  c == '~' || c == '*' || c == Char.ofNat 39 || c == '(' || c == ')'

/-- UTF-8 bytes of a character. -/
def utf8Bytes (c : Char) : List Nat :=
  let n := c.toNat
  if n < 128 then [n]
  else if n < 2048 then [192 + n / 64, 128 + n % 64]
  else if n < 65536 then [224 + n / 4096, 128 + n / 64 % 64, 128 + n % 64]
  else [240 + n / 262144, 128 + n / 4096 % 64, 128 + n / 64 % 64, 128 + n % 64]

/-- Uppercase hexadecimal digit. -/
def hexUpperDigit (n : Nat) : Char :=
  if n < 10 then Char.ofNat (48 + n) else Char.ofNat (55 + n)

/-- Model of JS `encodeURIComponent`: percent-escape the UTF-8 bytes of every
character outside the unreserved set. -/
def encodeURIComponent (s : String) : String :=
  String.mk (s.toList.flatMap fun c =>
    if encSafe c then [c]
    else (utf8Bytes c).flatMap fun b =>
      ['%', hexUpperDigit (b / 16), hexUpperDigit (b % 16)])

/-- The `relay=<url>` query fragment built in `attemptConnection` and
`connectWithBunker`: percent-encode each relay URL and join with `&`. -/
def relayQuery (relays : List String) : String :=
  String.intercalate "&" (relays.map fun r => "relay=" ++ encodeURIComponent r)

/-- The `bunker://` URI derived after a successful handshake
(src/lib/nip46.ts line 157): it embeds the signer SERVICE pubkey
(`signer.bp.pubkey`), not the learned user pubkey. -/
def bunkerUriOfHandshake (signerPubkey secret : String) : String :=
  "bunker://" ++ signerPubkey ++ "?" ++ relayQuery nip46RelaysArray ++
    "&secret=" ++ secret

/-- Result of the awaited transport calls of one successful
`attemptConnection`: `BunkerSigner.fromURI` exposes the service pubkey
`signer.bp.pubkey`, and the remote query `signer.getPublicKey()` returns the
user's pubkey — two distinct identities. -/
structure TransportConn where
  servicePubkey : String
  userPubkey : String
deriving DecidableEq

/-- State update of a successful `attemptConnection`
(src/lib/nip46.ts lines 132-161). -/
def applyAttemptSuccess (st : ManagerState) (conn : TransportConn) : ManagerState :=
  { st with
    signer := some (.fromURI conn.servicePubkey),
    userPubkey := some conn.userPubkey,
    bunkerString := some (bunkerUriOfHandshake conn.servicePubkey st.session.secret) }

/-- What the `onauth` closure does with an interactive-authorization URL. -/
inductive AuthAction where
  | callback (url : String)
  | handler (url : String)
  | openUrl (url : String)
deriving DecidableEq

/-- The `onauth` closure installed by `attemptConnection` (src/lib/nip46.ts
lines 137-148): prefer the `onAuth` parameter, then the registered
`onAuthHandler`, else open the URL itself through React-Native `Linking`. -/
def authDispatch (hasOnAuth hasHandler : Bool) (url : String) : AuthAction :=
  if hasOnAuth then .callback url
  else if hasHandler then .handler url
  else .openUrl url

/-- The `onauth` closure installed by `connectWithBunker` (src/lib/nip46.ts
lines 277-285): no per-call callback parameter exists there. -/
def authDispatchBunker (hasHandler : Bool) (url : String) : AuthAction :=
  if hasHandler then .handler url else .openUrl url

/-- Interface `NostrUnsignedEvent` (src/lib/nip46.ts lines 39-44). -/
structure NostrUnsignedEvent where
  kind : Nat
  created_at : Nat
  tags : List (List String)
  content : String
deriving DecidableEq

/-- Interface `NostrSignedEvent` (src/lib/nip46.ts lines 46-50). -/
structure NostrSignedEvent extends NostrUnsignedEvent where
  id : String
  pubkey : String
  sig : String
deriving DecidableEq

/-- Message thrown by `signEvent` when no signer handle is present. -/
def notConnectedMsg : String := "Not connected to remote signer"

/-- Message of the signing-timeout rejection, with `timeoutMs / 1000 = 20`
interpolated. -/
def signingTimeoutMsg : String :=
  "Signing timed out after 20s. Please open your signer app. If this persists, try logging out and logging back in."

/-- Settlement of the promise returned by `signEvent`. -/
inductive SignOutcome where
  | signed (ev : NostrSignedEvent)
  | failed (msg : String)
deriving DecidableEq

/-- Method `signEvent` (src/lib/nip46.ts lines 318-331).  The underlying
`signer.signEvent` call is modelled by `resp`: `none` if it never settles,
`some (t, out)` if it settles after `t` milliseconds.  `Promise.race` against
the 20000 ms rejection timer yields the signer's outcome exactly when the
signer settles strictly before the timer fires. -/
def signEvent (st : ManagerState) (resp : Option (Nat × SignOutcome)) : SignOutcome :=
  if st.signer.isNone then .failed notConnectedMsg
  else
    match resp with
    | none => .failed signingTimeoutMsg
    | some (t, out) => if t < 20000 then out else .failed signingTimeoutMsg

/-- Method `setOnAuth` (src/lib/nip46.ts lines 125-127). -/
def setOnAuth (st : ManagerState) : ManagerState := { st with onAuthHandler := true }

/-- Method `abort` (src/lib/nip46.ts lines 245-248): set the abort flag and
tear down the app-state listener subscription.  Nothing ever clears the flag. -/
def abort (st : ManagerState) : ManagerState :=
  { st with isAborted := true, appStateSubscription := false }

/-- Method `disconnect` (src/lib/nip46.ts lines 346-351). -/
def disconnect (st : ManagerState) : ManagerState :=
  { abort st with signer := none, userPubkey := none, bunkerString := none }

/-- Method `isConnected` (src/lib/nip46.ts lines 342-344). -/
def isConnected (st : ManagerState) : Bool :=
  st.signer.isSome && st.userPubkey.isSome

/-- Method `getPublicKey` (src/lib/nip46.ts lines 314-316). -/
def getPublicKey (st : ManagerState) : Option String := st.userPubkey

/-- Method `getBunkerUri` (src/lib/nip46.ts lines 310-312). -/
def getBunkerUri (st : ManagerState) : Option String := st.bunkerString

/-- The `bunker://` URI rebuilt by `connectWithBunker`
(src/lib/nip46.ts lines 292-295); the secret fragment is appended only when
the pointer carries one. -/
def bunkerUriOfPointer (bp : BunkerPointer) : String :=
  "bunker://" ++ bp.pubkey ++ "?" ++ relayQuery bp.relays ++
    (match bp.secret with | some s => "&secret=" ++ s | none => "")

/-- State update of a successful `connectWithBunker` once the
(relay-defaulted) pointer is known (src/lib/nip46.ts lines 273-298): the
channel is opened with `BunkerSigner.fromBunker` against the pointer's peer —
no `connect()` handshake is awaited — and the reported pubkey is taken from
the pointer itself. -/
def applyBunkerPointer (st : ManagerState) (bp : BunkerPointer) : ManagerState :=
  { st with
    signer := some (.fromBunker bp),
    userPubkey := some bp.pubkey,
    bunkerString := some (bunkerUriOfPointer bp) }

/-- Method `connectWithBunker` (src/lib/nip46.ts lines 253-299),
parameterised by the external URL library (`urlLib url` models
`new URL(url)` + `searchParams.delete('secret')` + `toString()`; `none`
models a parse exception, in which case the raw URL is used as-is) and by the
external `parseBunkerInput`.  The returned pointer is the argument of the
`BunkerSigner.fromBunker` channel-open call. -/
def connectWithBunker (parseBunker : String → Option BunkerPointer)
    (urlLib : String → Option String) (st : ManagerState)
    (bunkerUrl : String) (stripSecret : Bool) :
    Except String (ManagerState × BunkerPointer) :=
  let processedUrl := if stripSecret then (urlLib bunkerUrl).getD bunkerUrl else bunkerUrl
  match parseBunker processedUrl with
  | none => .error "Invalid bunker URL"
  | some bp0 =>
    let bp := if bp0.relays.isEmpty then { bp0 with relays := nip46RelaysArray } else bp0
    .ok (applyBunkerPointer st bp, bp)

/-- Method `reconnectFromSession` (src/lib/nip46.ts lines 304-308). -/
def reconnectFromSession (parseBunker : String → Option BunkerPointer)
    (urlLib : String → Option String) (st : ManagerState) :
    Except String (ManagerState × BunkerPointer) :=
  match st.session.bunkerUri with
  | none => .error "No bunkerUri stored in session"
  | some uri => connectWithBunker parseBunker urlLib st uri true

/-- The state-mutating operations of `NostrConnectManager`, with the external
inputs they consume. -/
inductive ManagerOp where
  | setOnAuthOp
  | attemptReset
  | attemptSuccess (conn : TransportConn)
  | bunkerConnect (bp : BunkerPointer)
  | subscribeAppState
  | cleanupAppState
  | abortOp
  | disconnectOp
deriving DecidableEq

/-- Apply one manager operation to the state. -/
def applyManagerOp (op : ManagerOp) (st : ManagerState) : ManagerState :=
  match op with
  | .setOnAuthOp => setOnAuth st
  | .attemptReset => { st with signer := none }
  | .attemptSuccess conn => applyAttemptSuccess st conn
  | .bunkerConnect bp => applyBunkerPointer st bp
  | .subscribeAppState => { st with appStateSubscription := true }
  | .cleanupAppState => { st with appStateSubscription := false }
  | .abortOp => abort st
  | .disconnectOp => disconnect st

/-- Settlement status of the promise returned by
`waitForConnectionWithAppStateRetry`. -/
inductive PromiseStatus where
  | pending
  | resolved (pk : String)
  | rejected (msg : String)
deriving DecidableEq

/-- State of one outstanding `waitForConnectionWithAppStateRetry` call
(src/lib/nip46.ts lines 196-236): its local `isResolved` flag, the manager
state, and the settlement status of the promise it returned. -/
structure RetryState where
  isResolved : Bool
  manager : ManagerState
  promise : PromiseStatus
deriving DecidableEq

/-- Scheduler events the outstanding call can observe. -/
inductive RetryEvent where
  | attemptSettled (r : WaitResult) (appActive : Bool)
  | appState (active : Bool)
  | abortCall
deriving DecidableEq

/-- Entry of `waitForConnectionWithAppStateRetry`: register the single
app-state listener subscription and start the first attempt; the returned
promise is pending. -/
def startRetry (m : ManagerState) : RetryState :=
  { isResolved := false,
    manager := { m with appStateSubscription := true },
    promise := .pending }

/-- One scheduler step of the outstanding call.  `attemptSettled r active`
runs the continuation of `attemptConnect` when the inner `waitForConnection`
settles with `r` while the host app is (`active`) or is not in the
foreground; `appState` delivers a host-lifecycle transition to the listener
(which only schedules a later attempt — a later `attemptSettled` event — and
mutates nothing); `abortCall` is `abort()`. -/
def retryStep (st : RetryState) (e : RetryEvent) : RetryState :=
  match e with
  | .attemptSettled r active =>
    match r with
    | .success pk =>
      if !st.isResolved && !st.manager.isAborted then
        { isResolved := true,
          manager := { st.manager with appStateSubscription := false },
          promise := .resolved pk }
      else st
    | .failure msg =>
      if st.isResolved || st.manager.isAborted then st
      else if !active then st
      else
        { isResolved := true,
          manager := { st.manager with appStateSubscription := false },
          promise := .rejected msg }
  | .appState _ => st
  | .abortCall => { st with manager := abort st.manager }

/-- Run the outstanding call against a finite schedule of events. -/
def runRetry (st : RetryState) (evs : List RetryEvent) : RetryState :=
  evs.foldl retryStep st

/-- Split a character list at the first occurrence of `c`. -/
def splitFirst (c : Char) : List Char → Option (List Char × List Char)
  | [] => none
  | a :: rest =>
    if a == c then some ([], rest)
    else (splitFirst c rest).map fun p => (a :: p.1, p.2)

/-- Split on every occurrence of `c` (so `"a&b&"` gives `["a", "b", ""]`). -/
def splitOnChar (c : Char) : List Char → List (List Char)
  | [] => [[]]
  | a :: rest =>
    if a == c then [] :: splitOnChar c rest
    else
      match splitOnChar c rest with
      | [] => [[a]]
      | h :: t => (a :: h) :: t

/-- WHATWG query-pair reading: the name is everything before the first `=`,
the value everything after it (empty when there is no `=`). -/
def pairOfParam (p : List Char) : List Char × List Char :=
  (p.takeWhile (fun c => c != '='), (p.dropWhile (fun c => c != '=')).drop 1)

/-- `URLSearchParams` view of a query string: split on `&` and drop empty
segments.  Percent-decoding of names and values is not modelled; the
parameter names this development inspects — `relay`, `secret` — are plain
ASCII in the URIs at hand. -/
def queryParams (q : List Char) : List (List Char × List Char) :=
  ((splitOnChar '&' q).filter (fun p => !p.isEmpty)).map pairOfParam

/-- Model of `new URL(url); url.searchParams.delete('secret'); url.toString()`
(src/lib/nip46.ts lines 256-263): drop every query parameter named `secret`
and re-serialise.  URL normalisation outside the query is not modelled. -/
def urlDeleteSecret (url : String) : String :=
  match splitFirst '?' url.toList with
  | none => url
  | some (base, query) =>
    let kept := (queryParams query).filter fun p => p.1 != "secret".toList
    if kept.isEmpty then String.mk base
    else
      String.mk (base ++ '?' ::
        List.intercalate ['&'] (kept.map fun p => p.1 ++ '=' :: p.2))

/-- Lowercase hexadecimal digits, as required of the pubkey segment by
nostr-tools `parseBunkerInput`. -/
def isLowerHexDigit (c : Char) : Bool :=
  ('0' ≤ c && c ≤ '9') || ('a' ≤ c && c ≤ 'f')

/-- Model of nostr-tools `parseBunkerInput` restricted to `bunker://` inputs:
a 64-character lowercase-hex pubkey, then an optional query whose `relay`
parameters are collected in order (`getAll`) and whose first `secret`
parameter, if any, is taken (`get`).  The NIP-05 resolution path performs
network I/O and is out of scope. -/
def parseBunkerInput (input : String) : Option BunkerPointer :=
  let cs := input.toList
  if startsWith "bunker://".toList cs then
    let rest := cs.drop 9
    let parts : List Char × List Char :=
      match splitFirst '?' rest with
      | some p => p
      | none => (rest, [])
    if parts.1.length == 64 && parts.1.all isLowerHexDigit then
      let ps := queryParams parts.2
      some
        { pubkey := String.mk parts.1,
          relays := (ps.filter fun p => p.1 == "relay".toList).map fun p => String.mk p.2,
          secret := (ps.find? fun p => p.1 == "secret".toList).map fun p => String.mk p.2 }
    else none
  else none

/-- Transport behaviour used by the C1 witness: attempt 0 fails recoverably,
attempt 1 fails fatally. -/
def c1Att : Nat → ConnResult :=
  fun i => if i == 0 then .err "websocket closed" else .err "invalid signature"

/-- Concrete valid session used by witnesses. -/
def c2Session : NostrConnectSession :=
  { clientPrivKey := List.range 32,
    clientPubKey := "89ab89ab89ab89ab",
    connectionString := "nostrconnect://89ab?relay=wss%3A%2F%2Frelay.primal.net&secret=sec-11",
    secret := "sec-00112233445566778899aabbccddeeff",
    image := some "https://aqstr.com/aqstr-logo.png",
    bunkerUri := none }

/-- A `JSON.parse` stub agreeing with the JSON library on the single blob the
C2 witness serialises. -/
def c2Parse : String → Option Json := fun _ => some (sessionToJson c2Session)

/-- Fields of the C8 counterexample object: structurally complete, but the
private key hex is the malformed (non-hex, even-length) string `"zz"`. -/
def c8Fields : List (String × Json) :=
  [("clientPrivKey", .str "zz"), ("clientPubKey", .str "a"),
   ("connectionString", .str "b"), ("secret", .str "c")]

/-- The serialized form of the C8 counterexample input, i.e. the JSON text
with braces `\x7b"clientPrivKey":"zz","clientPubKey":"a","connectionString":"b","secret":"c"\x7d`. -/
def c8Data : String :=
  renderFlatObj
    [("clientPrivKey", "zz"), ("clientPubKey", "a"),
     ("connectionString", "b"), ("secret", "c")]

/-- `JSON.parse` evaluated at `c8Data` (what the real library returns there). -/
def c8Parse : String → Option Json := fun _ => some (.obj c8Fields)

/-- Small session for manager-level witnesses. -/
def c5Session : NostrConnectSession :=
  { clientPrivKey := [1, 2, 3], clientPubKey := "pk", connectionString := "cs",
    secret := "sec-ff", image := none, bunkerUri := none }

/-- A 64-character lowercase-hex pubkey used in bunker-URL witnesses. -/
def hex64a : String := String.mk (List.replicate 64 'a')

/-- A second, distinct 64-character pubkey. -/
def hex64b : String := String.mk (List.replicate 64 'b')

/-- Bunker URL carrying a secret parameter, for the C6 witness. -/
def c6Url : String :=
  "bunker://" ++ hex64a ++ "?relay=wss%3A%2F%2Frelay.primal.net&secret=topsecret"

/-- Transport connection whose service and user pubkeys differ, for C7/C10. -/
def c10Conn : TransportConn := { servicePubkey := hex64a, userPubkey := hex64b }

theorem countAttempts_append (l1 l2 : List WaitEvent) :
    countAttempts (l1 ++ l2) = countAttempts l1 + countAttempts l2 := by
  simp [countAttempts, List.filter_append]

theorem filter_attempt_ifdelays (p : Prop) [Decidable p] :
    List.filter isAttemptEv (if p then ([] : List WaitEvent) else [.delay 1500]) = [] := by
  split <;> rfl

theorem waitGo_count_le (attempts : Nat → ConnResult) (ab : Nat → Bool) :
    ∀ fuel a le, countAttempts (waitGo attempts ab fuel a le).2 ≤ fuel := by
  intro fuel
  induction fuel with
  | zero => intro a le; simp [waitGo, countAttempts]
  | succ f ih =>
    intro a le
    simp only [waitGo]
    split
    · simp [countAttempts]
    · split
      · split
        · simp [countAttempts, filter_attempt_ifdelays]
        · have h := ih (a + 1) (some connectionAbortedMsg)
          simp only [countAttempts, List.filter_append, filter_attempt_ifdelays,
            List.nil_append, List.length_append] at h ⊢
          omega
      · rcases hA : attempts a with pk | msg
        · simp [hA, countAttempts, List.filter_append, filter_attempt_ifdelays, isAttemptEv]
        · by_cases hR : (!isRecoverable msg || ab (3 * a + 2)) = true
          · simp [hA, hR, countAttempts, List.filter_append, filter_attempt_ifdelays,
              isAttemptEv]
          · have h := ih (a + 1) (some msg)
            simp only [countAttempts] at h
            simp [hA, hR, countAttempts, List.filter_append, filter_attempt_ifdelays,
              isAttemptEv]
            omega

theorem mem_ifdelays {e : WaitEvent} {p : Prop} [Decidable p]
    (h : e ∈ (if p then ([] : List WaitEvent) else [.delay 1500])) :
    e = .delay 1500 := by
  by_cases hp : p
  · simp [hp] at h
  · simp [hp] at h
    exact h

theorem waitGo_delay_events (attempts : Nat → ConnResult) (ab : Nat → Bool) :
    ∀ fuel a le ms, WaitEvent.delay ms ∈ (waitGo attempts ab fuel a le).2 → ms = 1500 := by
  intro fuel
  induction fuel with
  | zero => intro a le ms h; simp [waitGo] at h
  | succ f ih =>
    intro a le ms h
    simp only [waitGo] at h
    split at h
    · simp at h
    · split at h
      · split at h
        · exact (WaitEvent.delay.injEq .. ).mp (mem_ifdelays h).symm |>.symm
        · rcases List.mem_append.mp h with h1 | h2
          · exact (WaitEvent.delay.injEq .. ).mp (mem_ifdelays h1).symm |>.symm
          · exact ih (a + 1) (some connectionAbortedMsg) ms h2
      · rcases hA : attempts a with pk | msg <;> simp only [hA] at h
        · rcases List.mem_append.mp h with h1 | h2
          · exact (WaitEvent.delay.injEq .. ).mp (mem_ifdelays h1).symm |>.symm
          · simp at h2
        · split at h
          · rcases List.mem_append.mp h with h1 | h2
            · exact (WaitEvent.delay.injEq .. ).mp (mem_ifdelays h1).symm |>.symm
            · simp at h2
          · rcases List.mem_append.mp h with h1 | h2
            · rcases List.mem_append.mp h1 with h3 | h4
              · exact (WaitEvent.delay.injEq .. ).mp (mem_ifdelays h3).symm |>.symm
              · simp at h4
            · exact ih (a + 1) (some msg) ms h2

theorem waitGo_first_fatal (attempts : Nat → ConnResult) :
    ∀ k fuel a le mk, k < fuel →
      (∀ i, i < k → ∃ m, attempts (a + i) = .err m ∧ isRecoverable m = true) →
      attempts (a + k) = .err mk → isRecoverable mk = false →
      waitGo attempts noAbort fuel a le = (.failure mk, traceUpTo a k) := by
  intro k
  induction k with
  | zero =>
    intro fuel a le mk hk hrec hak hmk
    obtain ⟨f, rfl⟩ : ∃ f, fuel = f + 1 := ⟨fuel - 1, by omega⟩
    simp only [Nat.add_zero] at hak
    simp only [waitGo, noAbort, Bool.false_eq_true, if_false]
    simp [hak, hmk, traceUpTo, attemptStep]
  | succ k ih =>
    intro fuel a le mk hk hrec hak hmk
    obtain ⟨f, rfl⟩ : ∃ f, fuel = f + 1 := ⟨fuel - 1, by omega⟩
    obtain ⟨m0, h0, hr0⟩ := hrec 0 (by omega)
    simp only [Nat.add_zero] at h0
    have hrest := ih f (a + 1) (some m0) mk (by omega)
      (fun i hi => by
        obtain ⟨m, hm, hrm⟩ := hrec (i + 1) (by omega)
        exact ⟨m, by rwa [show a + (i + 1) = (a + 1) + i by omega] at hm, hrm⟩)
      (by rwa [show a + (k + 1) = (a + 1) + k by omega] at hak) hmk
    simp only [waitGo, noAbort, Bool.false_eq_true, if_false]
    simp [h0, hr0, hrest, traceUpTo, attemptStep, List.append_assoc]

theorem waitGo_exhaust (attempts : Nat → ConnResult) (m0 m1 m2 m3 m4 : String)
    (h0 : attempts 0 = .err m0) (r0 : isRecoverable m0 = true)
    (h1 : attempts 1 = .err m1) (r1 : isRecoverable m1 = true)
    (h2 : attempts 2 = .err m2) (r2 : isRecoverable m2 = true)
    (h3 : attempts 3 = .err m3) (r3 : isRecoverable m3 = true)
    (h4 : attempts 4 = .err m4) (r4 : isRecoverable m4 = true) :
    waitForConnection attempts noAbort =
      (.failure m4,
        [.attempt 0, .delay 1500, .attempt 1, .delay 1500, .attempt 2, .delay 1500,
          .attempt 3, .delay 1500, .attempt 4]) := by
  simp [waitForConnection, waitGo, noAbort, h0, r0, h1, r1, h2, r2, h3, r3, h4, r4]

theorem waitForConnection_abort_in_catch (attempts : Nat → ConnResult) (ab : Nat → Bool)
    (m0 : String) (h0 : attempts 0 = .err m0) (r0 : isRecoverable m0 = true)
    (hab0 : ab 0 = false) (hab1 : ab 1 = false) (hab2 : ab 2 = true) :
    waitForConnection attempts ab = (.failure m0, [.attempt 0]) := by
  simp [waitForConnection, waitGo, h0, r0, hab0, hab1, hab2]

theorem waitForConnection_aborted (attempts : Nat → ConnResult) (ab : Nat → Bool)
    (h : ab 0 = true) : waitForConnection attempts ab = (.failure maxRetriesMsg, []) := by
  simp [waitForConnection, waitGo, h]

/-- C1: for every injected transport, `waitForConnection` calls
`attemptConnection` at most 5 times, every sleep between attempts is exactly
1500 ms; with no abort, the first non-recoverable failure (after any run of
recoverable ones) is rethrown immediately with no further attempts; five
recoverable failures exhaust the retries and reject with the last recoverable
error; an abort observed in the catch block rethrows the current error at
once; and an abort set before the loop rejects without a single attempt. -/
theorem waitForConnection_retry_policy :
    (∀ attempts ab, countAttempts (waitForConnection attempts ab).2 ≤ 5) ∧
    (∀ attempts ab ms, WaitEvent.delay ms ∈ (waitForConnection attempts ab).2 → ms = 1500) ∧
    (∀ attempts k mk, k < 5 →
      (∀ i, i < k → ∃ m, attempts i = ConnResult.err m ∧ isRecoverable m = true) →
      attempts k = ConnResult.err mk → isRecoverable mk = false →
      waitForConnection attempts noAbort = (WaitResult.failure mk, traceUpTo 0 k)) ∧
    (∀ attempts m0 m1 m2 m3 m4,
      attempts 0 = ConnResult.err m0 → isRecoverable m0 = true →
      attempts 1 = ConnResult.err m1 → isRecoverable m1 = true →
      attempts 2 = ConnResult.err m2 → isRecoverable m2 = true →
      attempts 3 = ConnResult.err m3 → isRecoverable m3 = true →
      attempts 4 = ConnResult.err m4 → isRecoverable m4 = true →
      waitForConnection attempts noAbort =
        (WaitResult.failure m4,
          [.attempt 0, .delay 1500, .attempt 1, .delay 1500, .attempt 2, .delay 1500,
            .attempt 3, .delay 1500, .attempt 4])) ∧
    (∀ attempts ab m0, attempts 0 = ConnResult.err m0 → isRecoverable m0 = true →
      ab 0 = false → ab 1 = false → ab 2 = true →
      waitForConnection attempts ab = (WaitResult.failure m0, [WaitEvent.attempt 0])) ∧
    (∀ attempts ab, ab 0 = true →
      waitForConnection attempts ab = (WaitResult.failure maxRetriesMsg, [])) := by
  refine ⟨fun attempts ab => waitGo_count_le attempts ab 5 0 none,
    fun attempts ab ms h => waitGo_delay_events attempts ab 5 0 none ms h,
    fun attempts k mk hk hrec hak hmk => ?_,
    fun attempts m0 m1 m2 m3 m4 h0 r0 h1 r1 h2 r2 h3 r3 h4 r4 =>
      waitGo_exhaust attempts m0 m1 m2 m3 m4 h0 r0 h1 r1 h2 r2 h3 r3 h4 r4,
    fun attempts ab m0 h0 r0 hab0 hab1 hab2 =>
      waitForConnection_abort_in_catch attempts ab m0 h0 r0 hab0 hab1 hab2,
    fun attempts ab h => waitForConnection_aborted attempts ab h⟩
  have := waitGo_first_fatal attempts k 5 0 none mk hk
    (fun i hi => by simpa using hrec i hi) (by simpa using hak) hmk
  simpa [waitForConnection] using this

/-- Witness for C1: with a transport failing recoverably on attempt 0
(`websocket closed`) and fatally on attempt 1 (`invalid signature`), the call
rejects with the fatal error after exactly attempts 0 and 1. -/
theorem waitForConnection_retry_policy_witness :
    waitForConnection c1Att noAbort =
      (WaitResult.failure "invalid signature", traceUpTo 0 1) :=
  waitForConnection_retry_policy.2.2.1 c1Att 1 "invalid signature" (by omega)
    (fun i hi => by
      interval_cases i
      exact ⟨"websocket closed", rfl, by decide⟩)
    rfl (by decide)

set_option maxHeartbeats 4000000 in
set_option maxRecDepth 10000 in
theorem byte_parse_roundtrip : ∀ b : Fin 256,
    toUint8 (jsParseIntHex (String.mk (byteToHexList b.val))) = b.val ∧
    (byteToHexList b.val).length = 2 := by decide

theorem byteToHexList_len2 (b : Nat) (h : b < 256) : (byteToHexList b).length = 2 :=
  (byte_parse_roundtrip ⟨b, h⟩).2

theorem byte_parse (b : Nat) (h : b < 256) :
    toUint8 (jsParseIntHex (String.mk (byteToHexList b))) = b :=
  (byte_parse_roundtrip ⟨b, h⟩).1

theorem bytesToHexList_length (bs : List Nat) (h : ∀ b ∈ bs, b < 256) :
    (bytesToHexList bs).length = 2 * bs.length := by
  induction bs with
  | nil => rfl
  | cons b bs ih =>
    have hb : b < 256 := h b (by simp)
    have ht := ih (fun x hx => h x (by simp [hx]))
    simp only [bytesToHexList, List.length_append, byteToHexList_len2 b hb, ht,
      List.length_cons]
    omega

theorem drop_two_cons (c1 c2 : Char) (rest : List Char) (i : Nat) :
    (c1 :: c2 :: rest).drop (i * 2 + 2) = rest.drop (i * 2) := by
  rw [show i * 2 + 2 = i * 2 + 1 + 1 by omega]
  simp [List.drop_succ_cons]

theorem hexMapAux (bs : List Nat) (h : ∀ b ∈ bs, b < 256) :
    (List.range bs.length).map (fun i =>
      toUint8 (jsParseIntHex
        (jsSubstring (String.mk (bytesToHexList bs)) (i * 2) (i * 2 + 2)))) = bs := by
  induction bs with
  | nil => rfl
  | cons b bs ih =>
    have hb : b < 256 := h b (by simp)
    have h2 := byteToHexList_len2 b hb
    rcases hcs : byteToHexList b with - | ⟨c1, - | ⟨c2, - | ⟨c3, t⟩⟩⟩ <;>
      rw [hcs] at h2 <;> try simp at h2
    have ht := ih (fun x hx => h x (by simp [hx]))
    simp only [List.length_cons, List.range_succ_eq_map, List.map_cons, List.map_map]
    have hhx : bytesToHexList (b :: bs) = c1 :: c2 :: bytesToHexList bs := by
      simp [bytesToHexList, hcs]
    rw [hhx]
    congr 1
    · have he : jsSubstring (String.mk (c1 :: c2 :: bytesToHexList bs)) (0 * 2) (0 * 2 + 2) =
          String.mk (byteToHexList b) := by
        simp [jsSubstring, String.toList, hcs]
      rw [he]
      exact byte_parse b hb
    · refine Eq.trans (List.map_congr_left ?_) ht
      intro i hi
      have hdrop : (c1 :: c2 :: bytesToHexList bs).drop (Nat.succ i * 2) =
          (bytesToHexList bs).drop (i * 2) := by
        rw [show Nat.succ i * 2 = i * 2 + 2 by omega]
        exact drop_two_cons c1 c2 (bytesToHexList bs) i
      simp [Function.comp, jsSubstring, String.toList, hdrop,
        show Nat.succ i * 2 + 2 - Nat.succ i * 2 = 2 by omega,
        show i * 2 + 2 - i * 2 = 2 by omega]

theorem hexToBytes_bytesToHex (bs : List Nat) (h : ∀ b ∈ bs, b < 256) :
    hexToBytes (bytesToHex bs) = some bs := by
  have hlen : (bytesToHex bs).length = 2 * bs.length := by
    simpa [bytesToHex, String.length] using bytesToHexList_length bs h
  simp only [hexToBytes, hlen]
  rw [if_neg (by omega)]
  have h2 : 2 * bs.length / 2 = bs.length := by omega
  rw [h2]
  exact congrArg some (hexMapAux bs h)

theorem bytesToHex_ne_empty (bs : List Nat) (h : ∀ b ∈ bs, b < 256) (hne : bs ≠ []) :
    bytesToHex bs ≠ "" := by
  intro hc
  have hl := congrArg String.length hc
  have hlen : (bytesToHex bs).length = 2 * bs.length := by
    simpa [bytesToHex, String.length] using bytesToHexList_length bs h
  rw [hlen] at hl
  have hne0 : bs.length ≠ 0 := fun h0 => hne (List.length_eq_zero.mp h0)
  have h0 : ("" : String).length = 0 := rfl
  rw [h0] at hl
  exact hne0 (by omega)

/-- C2: for every valid `NostrConnectSession` (a 32-byte private key and
non-empty — hence truthy — required string fields, per the Session data model;
`image` and `bunkerUri` optional) and every `JSON.parse` behaving as the JSON
round trip guarantees on the serialized blob,
`deserializeSession (serializeSession s)` reconstructs `s` field by field,
including the private-key bytes. -/
theorem deserializeSession_serializeSession (parse : String → Option Json)
    (s : NostrConnectSession)
    (hlen : s.clientPrivKey.length = 32)
    (hbytes : ∀ b ∈ s.clientPrivKey, b < 256)
    (hpk : s.clientPubKey ≠ "") (hcs : s.connectionString ≠ "") (hsec : s.secret ≠ "")
    (hparse : parse (serializeSession s) = some (sessionToJson s)) :
    deserializeSession parse (serializeSession s) = some (storedOfSession s) := by
  have hkeyne : s.clientPrivKey ≠ [] := by
    intro hc
    rw [hc] at hlen
    simp at hlen
  have hhexne : bytesToHex s.clientPrivKey ≠ "" := bytesToHex_ne_empty _ hbytes hkeyne
  simp only [deserializeSession, hparse]
  rcases himg : s.image with - | img <;> rcases hbun : s.bunkerUri with - | bun <;>
    simp [deserializeSessionJson, sessionToJson, sessionFields, himg, hbun, jsonLookup,
      jsTruthyOpt, jsTruthy, storedOfSession, bne_iff_ne, hpk, hcs, hsec, hhexne,
      hexToBytes_bytesToHex s.clientPrivKey hbytes]

/-- Witness for C2: the round trip evaluated at the concrete session
`c2Session`, with the `JSON.parse` stub agreeing with the JSON library on its
serialized blob. -/
theorem deserializeSession_serializeSession_witness :
    deserializeSession c2Parse (serializeSession c2Session) =
      some (storedOfSession c2Session) :=
  deserializeSession_serializeSession c2Parse c2Session (by decide) (by decide)
    (by decide) (by decide) (by decide) rfl

/-- C8 (amended): `deserializeSession` is a total function (never throws) and
returns `null` on every JSON-parse failure, on every non-object parse result,
on every object missing a required field (or carrying a falsy one), and on a
private-key hex string of odd length — the only case in which `hexToBytes`
throws.  (As the counterexample shows, an even-length non-hex key string is
NOT rejected.) -/
theorem deserializeSession_invalid_inputs :
    (∀ parse data, parse data = none → deserializeSession parse data = none) ∧
    (∀ j, (∀ fields, j ≠ Json.obj fields) → deserializeSessionJson j = none) ∧
    (∀ fields,
      jsTruthyOpt (jsonLookup fields "clientPrivKey") = false ∨
      jsTruthyOpt (jsonLookup fields "clientPubKey") = false ∨
      jsTruthyOpt (jsonLookup fields "connectionString") = false ∨
      jsTruthyOpt (jsonLookup fields "secret") = false →
      deserializeSessionJson (Json.obj fields) = none) ∧
    (∀ fields hex, jsonLookup fields "clientPrivKey" = some (Json.str hex) →
      hex.length % 2 = 1 → deserializeSessionJson (Json.obj fields) = none) := by
  refine ⟨fun parse data h => by simp [deserializeSession, h],
    fun j hj => ?_, fun fields h => ?_, fun fields hex hkey hodd => ?_⟩
  · cases j with
    | obj fields => exact absurd rfl (hj fields)
    | _ => simp [deserializeSessionJson]
  · rcases h with h | h | h | h <;> simp [deserializeSessionJson, h]
  · simp only [deserializeSessionJson, hkey]
    split
    · rfl
    · simp [hexToBytes, hodd]

/-- Counterexample to C8 as stated: the even-length private-key string
`"zz"` is a malformed hex encoding, yet `deserializeSession` does not return
`null` on it.  `JSON.parse` maps the input text `c8Data` (i.e. the string
`\x7b"clientPrivKey":"zz","clientPubKey":"a","connectionString":"b","secret":"c"\x7d`)
to the object `c8Fields` (library behaviour, stubbed by `c8Parse`), and the
codec then accepts it: JS `parseInt("zz", 16)` is `NaN` and the `Uint8Array`
store coerces `NaN` to `0`, so a session with private key `[0]` is returned. -/
theorem deserializeSession_malformed_hex_counterexample :
    deserializeSession c8Parse c8Data =
      some { clientPrivKey := [0], clientPubKey := .str "a",
             connectionString := .str "b", secret := .str "c",
             image := none, bunkerUri := none } := rfl

/-- Witness for the amended C8: an odd-length key hex string (`"abc"`) is
rejected with `null`. -/
theorem deserializeSession_invalid_inputs_witness :
    deserializeSessionJson
      (Json.obj [("clientPrivKey", Json.str "abc"), ("clientPubKey", Json.str "a"),
        ("connectionString", Json.str "b"), ("secret", Json.str "c")]) = none :=
  deserializeSession_invalid_inputs.2.2.2
    [("clientPrivKey", Json.str "abc"), ("clientPubKey", Json.str "a"),
      ("connectionString", Json.str "b"), ("secret", Json.str "c")]
    "abc" rfl (by decide)

/-- Counterexample to C3 as stated: when no per-call callback was passed and
no handler was registered, the `onauth` closures of both `attemptConnection`
and `connectWithBunker` open the authorization URL themselves via the
React-Native `Linking` capability (the explicit fallback branch at
src/lib/nip46.ts lines 143-147 and 280-284), so a URL-open action IS
performed by the engine. -/
theorem onauth_opens_url_counterexample :
    authDispatch false false "https://signer.example/auth" =
      AuthAction.openUrl "https://signer.example/auth" ∧
    authDispatchBunker false "https://signer.example/auth" =
      AuthAction.openUrl "https://signer.example/auth" :=
  ⟨rfl, rfl⟩

/-- C3 (amended): when an `onAuthUrl` callback is passed to the attempt it
alone receives the URL; otherwise a previously registered handler receives
it; in those cases no URL-open action is performed.  Only when neither is
present does the engine fall back to opening the URL itself through the host
`Linking` capability. -/
theorem onauth_propagation :
    (∀ h url, authDispatch true h url = AuthAction.callback url) ∧
    (∀ url, authDispatch false true url = AuthAction.handler url) ∧
    (∀ hasOnAuth hasHandler url u, (hasOnAuth || hasHandler) = true →
      authDispatch hasOnAuth hasHandler url ≠ AuthAction.openUrl u) ∧
    (∀ url, authDispatch false false url = AuthAction.openUrl url) ∧
    (∀ url, authDispatchBunker true url = AuthAction.handler url) ∧
    (∀ url u, authDispatchBunker true url ≠ AuthAction.openUrl u) ∧
    (∀ url, authDispatchBunker false url = AuthAction.openUrl url) := by
  refine ⟨fun h url => rfl, fun url => rfl, fun hasOnAuth hasHandler url u hor => ?_,
    fun url => rfl, fun url => rfl, fun url u => by simp [authDispatchBunker],
    fun url => rfl⟩
  cases hasOnAuth <;> cases hasHandler <;> simp_all [authDispatch]

/-- Witness for the amended C3: with a registered handler and no per-call
callback, the URL goes to the handler and no URL-open action occurs. -/
theorem onauth_propagation_witness :
    authDispatch false true "https://signer.example/auth" =
      AuthAction.handler "https://signer.example/auth" ∧
    authDispatch false true "https://signer.example/auth" ≠
      AuthAction.openUrl "https://signer.example/auth" :=
  ⟨onauth_propagation.2.1 "https://signer.example/auth",
    onauth_propagation.2.2.1 false true "https://signer.example/auth"
      "https://signer.example/auth" rfl⟩

/-- C4: `signEvent` rejects with the not-connected error whenever no signer
handle is present; when connected it races the signing call against a
20-second timer: a signer that has not settled within 20000 ms yields the
distinct signing-timeout rejection, whose message carries the user guidance
(open the signer app; if persistent, log out and back in), while a signer
settling strictly earlier yields the signer's own outcome. -/
theorem signEvent_policy :
    (∀ st resp, st.signer = none → signEvent st resp = SignOutcome.failed notConnectedMsg) ∧
    (∀ st resp, st.signer.isSome = true →
      (resp = none ∨ ∃ t out, resp = some (t, out) ∧ 20000 ≤ t) →
      signEvent st resp = SignOutcome.failed signingTimeoutMsg) ∧
    (∀ st t out, st.signer.isSome = true → t < 20000 →
      signEvent st (some (t, out)) = out) ∧
    signingTimeoutMsg ≠ notConnectedMsg ∧
    containsSub signingTimeoutMsg.toList "open your signer app".toList = true ∧
    containsSub signingTimeoutMsg.toList "logging out and logging back in".toList = true := by
  refine ⟨fun st resp h => by simp [signEvent, h],
    fun st resp hs hresp => ?_, fun st t out hs ht => ?_,
    by decide, by decide, by decide⟩
  · have hne : st.signer ≠ none := by
      intro hc
      rw [hc] at hs
      simp at hs
    rcases hresp with rfl | ⟨t, out, rfl, ht⟩
    · simp [signEvent, Option.isNone_iff_eq_none, hne]
    · simp [signEvent, Option.isNone_iff_eq_none, hne]
      omega
  · have hne : st.signer ≠ none := by
      intro hc
      rw [hc] at hs
      simp at hs
    simp [signEvent, Option.isNone_iff_eq_none, hne, ht]

/-- Witness for C4: a connected manager whose signer never settles rejects
with the signing-timeout message. -/
theorem signEvent_policy_witness :
    signEvent (applyAttemptSuccess (mkManager c5Session) c10Conn) none =
      SignOutcome.failed signingTimeoutMsg :=
  signEvent_policy.2.1 (applyAttemptSuccess (mkManager c5Session) c10Conn) none rfl
    (Or.inl rfl)

theorem retryStep_aborted_preserved (st : RetryState) (e : RetryEvent)
    (ha : st.manager.isAborted = true) (hs : st.manager.appStateSubscription = false) :
    (retryStep st e).promise = st.promise ∧
    (retryStep st e).manager.isAborted = true ∧
    (retryStep st e).manager.appStateSubscription = false := by
  cases e with
  | attemptSettled r active => cases r <;> simp [retryStep, ha, hs]
  | appState active => simp [retryStep, ha, hs]
  | abortCall => simp [retryStep, abort, ha]

theorem runRetry_aborted_pending (st : RetryState) (evs : List RetryEvent)
    (ha : st.manager.isAborted = true) (hp : st.promise = PromiseStatus.pending)
    (hs : st.manager.appStateSubscription = false) :
    (runRetry st evs).promise = PromiseStatus.pending ∧
    (runRetry st evs).manager.appStateSubscription = false ∧
    (runRetry st evs).manager.isAborted = true := by
  induction evs generalizing st with
  | nil => exact ⟨hp, hs, ha⟩
  | cons e evs ih =>
    obtain ⟨h1, h2, h3⟩ := retryStep_aborted_preserved st e ha hs
    exact ih (retryStep st e) h2 (h1.trans hp) h3

/-- Counterexample to C5 as stated: `abort()` during an outstanding
`waitForConnectionWithAppStateRetry` does NOT cause the call to settle.  After
`abort()`, even when the in-flight `waitForConnection` subsequently fails in
the foreground (the continuation returns early on `this.isAborted`), a
foreground transition arrives, and a late attempt even succeeds, the promise
is still pending: every resolve/reject site is guarded by the abort flag, so
the promise is abandoned forever rather than settled. -/
theorem retry_abort_counterexample :
    (runRetry (startRetry (mkManager c5Session))
      [RetryEvent.abortCall,
        RetryEvent.attemptSettled (WaitResult.failure "websocket error") true,
        RetryEvent.appState true,
        RetryEvent.attemptSettled (WaitResult.success "pubkey") true]).promise =
      PromiseStatus.pending := rfl

/-- C5 (amended): `abort()` never settles the outstanding
`waitForConnectionWithAppStateRetry` call: it tears down the single
host-lifecycle listener subscription (none is leaked), leaves the promise
exactly as it was — permanently pending, since after the abort flag is set no
continuation ever resolves or rejects it — and does not itself change the
connection fields, so a manager that was not connected stays disconnected. -/
theorem retry_abort_behaviour :
    (∀ st, (retryStep st RetryEvent.abortCall).manager.isAborted = true ∧
      (retryStep st RetryEvent.abortCall).manager.appStateSubscription = false ∧
      (retryStep st RetryEvent.abortCall).promise = st.promise ∧
      isConnected (retryStep st RetryEvent.abortCall).manager = isConnected st.manager) ∧
    (∀ st evs, st.manager.isAborted = true → st.promise = PromiseStatus.pending →
      st.manager.appStateSubscription = false →
      (runRetry st evs).promise = PromiseStatus.pending ∧
      (runRetry st evs).manager.appStateSubscription = false ∧
      (runRetry st evs).manager.isAborted = true) := by
  constructor
  · intro st
    refine ⟨rfl, rfl, rfl, ?_⟩
    simp [retryStep, abort, isConnected]
  · exact fun st evs => runRetry_aborted_pending st evs

/-- Witness for the amended C5: from a freshly aborted outstanding call, a
foreground failure and a late success leave the promise pending, the
subscription torn down and the abort flag set. -/
theorem retry_abort_behaviour_witness :
    (runRetry (retryStep (startRetry (mkManager c5Session)) RetryEvent.abortCall)
        [RetryEvent.attemptSettled (WaitResult.failure "connection closed") true,
          RetryEvent.attemptSettled (WaitResult.success "pubkey") true]).promise =
      PromiseStatus.pending ∧
    (runRetry (retryStep (startRetry (mkManager c5Session)) RetryEvent.abortCall)
        [RetryEvent.attemptSettled (WaitResult.failure "connection closed") true,
          RetryEvent.attemptSettled (WaitResult.success "pubkey") true]).manager.appStateSubscription =
      false ∧
    (runRetry (retryStep (startRetry (mkManager c5Session)) RetryEvent.abortCall)
        [RetryEvent.attemptSettled (WaitResult.failure "connection closed") true,
          RetryEvent.attemptSettled (WaitResult.success "pubkey") true]).manager.isAborted =
      true :=
  retry_abort_behaviour.2 (retryStep (startRetry (mkManager c5Session)) RetryEvent.abortCall)
    [RetryEvent.attemptSettled (WaitResult.failure "connection closed") true,
      RetryEvent.attemptSettled (WaitResult.success "pubkey") true]
    rfl rfl rfl

theorem startsWith_iff (pat cs : List Char) :
    startsWith pat cs = true ↔ ∃ t, cs = pat ++ t := by
  induction pat generalizing cs with
  | nil => simp [startsWith]
  | cons a pat ih =>
    cases cs with
    | nil => simp [startsWith]
    | cons b cs =>
      simp only [startsWith, Bool.and_eq_true, beq_iff_eq, ih, List.cons_append,
        List.cons.injEq]
      constructor
      · rintro ⟨rfl, t, rfl⟩
        exact ⟨t, rfl, rfl⟩
      · rintro ⟨t, rfl, rfl⟩
        exact ⟨rfl, t, rfl⟩

theorem splitFirst_eq_none (c : Char) (cs : List Char) :
    splitFirst c cs = none ↔ c ∉ cs := by
  induction cs with
  | nil => simp [splitFirst]
  | cons a rest ih =>
    by_cases ha : a = c
    · simp [splitFirst, ha]
    · simp only [splitFirst, beq_iff_eq, ha, if_false, List.mem_cons]
      cases h : splitFirst c rest with
      | none => simp [h, ih.mp h, Ne.symm ha, ha]
      | some p =>
        have hmem : c ∈ rest := by
          by_contra hc
          rw [ih.mpr hc] at h
          exact Option.noConfusion h
        simp [h, hmem, ha]

theorem splitFirst_spec (c : Char) :
    ∀ cs pre post, splitFirst c cs = some (pre, post) →
      cs = pre ++ c :: post ∧ c ∉ pre := by
  intro cs
  induction cs with
  | nil => intro pre post h; simp [splitFirst] at h
  | cons a rest ih =>
    intro pre post h
    by_cases ha : a = c
    · simp [splitFirst, ha] at h
      obtain ⟨rfl, rfl⟩ := h
      simp [ha]
    · simp only [splitFirst, beq_iff_eq, ha, if_false] at h
      cases hs : splitFirst c rest with
      | none => rw [hs] at h; simp at h
      | some p =>
        rw [hs] at h
        simp only [Option.map_some', Option.map_some, Option.some.injEq,
          Prod.mk.injEq] at h
        obtain ⟨h1, h2⟩ := h
        obtain ⟨hr, hnp⟩ := ih p.1 p.2 (by rw [hs])
        subst h1
        subst h2
        refine ⟨by simp [hr], ?_⟩
        intro hc
        rcases List.mem_cons.mp hc with rfl | hc2
        · exact ha rfl
        · exact hnp hc2

theorem splitFirst_append (c : Char) (xs ys : List Char) (hx : c ∉ xs) :
    splitFirst c (xs ++ c :: ys) = some (xs, ys) := by
  induction xs with
  | nil =>
    rw [List.nil_append]
    simp [splitFirst]
  | cons a xs ih =>
    have ha : a ≠ c := fun hc => hx (by simp [hc])
    have hx' : c ∉ xs := fun hc => hx (by simp [hc])
    simp [splitFirst, ha, ih hx']

theorem splitOnChar_ne_nil (c : Char) (cs : List Char) : splitOnChar c cs ≠ [] := by
  cases cs with
  | nil => simp [splitOnChar]
  | cons a rest =>
    by_cases ha : a = c
    · simp [splitOnChar, ha]
    · simp only [splitOnChar, beq_iff_eq, ha, if_false]
      cases splitOnChar c rest <;> simp

theorem mem_splitOnChar_not_mem (c : Char) :
    ∀ cs p, p ∈ splitOnChar c cs → c ∉ p := by
  intro cs
  induction cs with
  | nil =>
    intro p hp
    simp [splitOnChar] at hp
    simp [hp]
  | cons a rest ih =>
    intro p hp
    by_cases ha : a = c
    · simp only [splitOnChar, beq_iff_eq, ha, if_true, List.mem_cons] at hp
      rcases hp with rfl | hp
      · simp
      · exact ih p hp
    · simp only [splitOnChar, beq_iff_eq, ha, if_false] at hp
      cases hs : splitOnChar c rest with
      | nil => exact absurd hs (splitOnChar_ne_nil c rest)
      | cons h t =>
        rw [hs] at hp
        rcases List.mem_cons.mp hp with rfl | hp2
        · intro hc
          rcases List.mem_cons.mp hc with rfl | hc2
          · exact ha rfl
          · exact ih h (by rw [hs]; exact List.mem_cons_self h t) hc2
        · exact ih p (by rw [hs]; exact List.mem_cons_of_mem h hp2)

theorem splitOnChar_no_sep (c : Char) :
    ∀ p, c ∉ p → splitOnChar c p = [p] := by
  intro p
  induction p with
  | nil => intro _; rfl
  | cons a rest ih =>
    intro hp
    have ha : a ≠ c := fun hc => hp (by simp [hc])
    have hr : c ∉ rest := fun hc => hp (by simp [hc])
    simp only [splitOnChar, beq_iff_eq, ha, if_false, ih hr]

theorem splitOnChar_append_sep (c : Char) :
    ∀ p rest, c ∉ p → splitOnChar c (p ++ c :: rest) = p :: splitOnChar c rest := by
  intro p
  induction p with
  | nil => intro rest _; simp [splitOnChar]
  | cons a p ih =>
    intro rest hp
    have ha : a ≠ c := fun hc => hp (by simp [hc])
    have hp' : c ∉ p := fun hc => hp (by simp [hc])
    have hrec := ih rest hp'
    show splitOnChar c ((a :: p) ++ c :: rest) = (a :: p) :: splitOnChar c rest
    rw [List.cons_append]
    simp only [splitOnChar, beq_iff_eq, ha, if_false]
    rw [hrec]

theorem intercalate_cons_of_ne_nil (sep p : List Char) (ps : List (List Char))
    (h : ps ≠ []) :
    List.intercalate sep (p :: ps) = p ++ sep ++ List.intercalate sep ps := by
  cases ps with
  | nil => exact absurd rfl h
  | cons q t => simp [List.intercalate, List.intersperse, List.flatten_cons, List.append_assoc]

theorem splitOnChar_intercalate (c : Char) :
    ∀ ps, ps ≠ [] → (∀ p ∈ ps, c ∉ p) →
      splitOnChar c (List.intercalate [c] ps) = ps := by
  intro ps
  induction ps with
  | nil => intro h _; exact absurd rfl h
  | cons p ps ih =>
    intro _ hmem
    cases hps : ps with
    | nil =>
      have : List.intercalate [c] [p] = p := by simp [List.intercalate]
      rw [this]
      exact splitOnChar_no_sep c p (hmem p (by simp))
    | cons q t =>
      rw [← hps, intercalate_cons_of_ne_nil [c] p ps (by rw [hps]; simp)]
      have hp : c ∉ p := hmem p (by simp)
      rw [List.append_assoc, List.singleton_append, splitOnChar_append_sep c p _ hp]
      rw [ih (by rw [hps]; simp) (fun x hx => hmem x (by simp [hx]))]

theorem takeWhile_neq_append (k v : List Char) (hk : ('=' : Char) ∉ k) :
    (k ++ '=' :: v).takeWhile (fun c => c != '=') = k := by
  induction k with
  | nil => simp
  | cons a k ih =>
    have ha : a ≠ '=' := fun hc => hk (by simp [hc])
    have hk' : ('=' : Char) ∉ k := fun hc => hk (by simp [hc])
    rw [List.cons_append, List.takeWhile_cons, if_pos (by simp [ha]), ih hk']

theorem dropWhile_neq_append (k v : List Char) (hk : ('=' : Char) ∉ k) :
    (k ++ '=' :: v).dropWhile (fun c => c != '=') = '=' :: v := by
  induction k with
  | nil => simp
  | cons a k ih =>
    have ha : a ≠ '=' := fun hc => hk (by simp [hc])
    have hk' : ('=' : Char) ∉ k := fun hc => hk (by simp [hc])
    rw [List.cons_append, List.dropWhile_cons, if_pos (by simp [ha])]
    exact ih hk'

theorem pairOfParam_render (k v : List Char) (hk : ('=' : Char) ∉ k) :
    pairOfParam (k ++ '=' :: v) = (k, v) := by
  unfold pairOfParam
  rw [takeWhile_neq_append k v hk, dropWhile_neq_append k v hk]
  simp

theorem queryParams_props (query : List Char) (p : List Char × List Char)
    (hp : p ∈ queryParams query) :
    ('&' : Char) ∉ p.1 ∧ ('&' : Char) ∉ p.2 ∧ ('=' : Char) ∉ p.1 := by
  unfold queryParams at hp
  obtain ⟨q, hq, rfl⟩ := List.mem_map.mp hp
  have hqmem : q ∈ splitOnChar '&' query := (List.mem_filter.mp hq).1
  have hamp : ('&' : Char) ∉ q := mem_splitOnChar_not_mem '&' query q hqmem
  refine ⟨?_, ?_, ?_⟩
  · intro hc
    exact hamp ((List.takeWhile_sublist _).subset hc)
  · intro hc
    exact hamp ((List.dropWhile_sublist _).subset ((List.drop_sublist 1 _).subset hc))
  · intro hc
    have := List.mem_takeWhile_imp hc
    simp at this

theorem parseBunkerInput_no_query (u : String) (bp : BunkerPointer)
    (hq : ('?' : Char) ∉ u.toList) (h : parseBunkerInput u = some bp) :
    bp.secret = none := by
  unfold parseBunkerInput at h
  by_cases hb : startsWith "bunker://".toList u.toList = true
  · rw [if_pos hb] at h
    have hsf : splitFirst '?' (u.toList.drop 9) = none :=
      (splitFirst_eq_none '?' _).mpr (fun hc => hq ((List.drop_sublist 9 _).subset hc))
    simp only [hsf] at h
    split at h
    · rw [Option.some.injEq] at h
      rw [← h]
      rfl
    · exact Option.noConfusion h
  · rw [if_neg hb] at h
    exact Option.noConfusion h

theorem bunker_scheme_no_qmark : ∀ i : Fin 9, "bunker://".toList[i.val]? ≠ some '?' := by
  decide

theorem urlDeleteSecret_no_secret (url : String) (bp : BunkerPointer)
    (h : parseBunkerInput (urlDeleteSecret url) = some bp) : bp.secret = none := by
  unfold urlDeleteSecret at h
  cases hsp : splitFirst '?' url.toList with
  | none =>
    rw [hsp] at h
    exact parseBunkerInput_no_query url bp ((splitFirst_eq_none '?' _).mp hsp) h
  | some pr =>
    obtain ⟨base, query⟩ := pr
    simp only [hsp] at h
    obtain ⟨hurl, hbase⟩ := splitFirst_spec '?' url.toList base query hsp
    by_cases hk :
        ((queryParams query).filter (fun p => p.1 != "secret".toList)).isEmpty = true
    · rw [if_pos hk] at h
      exact parseBunkerInput_no_query (String.mk base) bp hbase h
    · rw [if_neg (by simpa using hk)] at h
      have hkept :
          (queryParams query).filter (fun p => p.1 != "secret".toList) ≠ [] := by
        simpa [List.isEmpty_iff] using hk
      set kept := (queryParams query).filter (fun p => p.1 != "secret".toList) with hkeptdef
      set R := List.intercalate ['&'] (kept.map fun p => p.1 ++ '=' :: p.2) with hRdef
      unfold parseBunkerInput at h
      by_cases hb : startsWith "bunker://".toList (String.mk (base ++ '?' :: R)).toList = true
      case neg => rw [if_neg hb] at h; exact Option.noConfusion h
      case pos =>
        rw [if_pos hb] at h
        obtain ⟨t, hteq⟩ := (startsWith_iff _ _).mp hb
        have hteq' : base ++ '?' :: R = "bunker://".toList ++ t := hteq
        have hlen : 9 ≤ base.length := by
          by_contra hlt
          push_neg at hlt
          have h1 : (base ++ '?' :: R)[base.length]? = some '?' := by
            rw [List.getElem?_append_right (le_refl _)]
            simp
          rw [hteq'] at h1
          rw [List.getElem?_append, if_pos (by simpa using hlt)] at h1
          exact bunker_scheme_no_qmark ⟨base.length, hlt⟩ h1
        have hdrop : (String.mk (base ++ '?' :: R)).toList.drop 9 =
            base.drop 9 ++ '?' :: R := by
          show (base ++ '?' :: R).drop 9 = base.drop 9 ++ '?' :: R
          exact List.drop_append_of_le_length hlen
        have hsf : splitFirst '?' ((String.mk (base ++ '?' :: R)).toList.drop 9) =
            some (base.drop 9, R) := by
          rw [hdrop]
          exact splitFirst_append '?' _ R
            (fun hc => hbase ((List.drop_sublist 9 base).subset hc))
        simp only [hsf] at h
        have hmemkept : ∀ p ∈ kept, p ∈ queryParams query := by
          intro p hp
          exact (List.mem_filter.mp (hkeptdef ▸ hp)).1
        have hqR : queryParams R = kept := by
          have hmap_ne : kept.map (fun p => p.1 ++ '=' :: p.2) ≠ [] := by
            simpa using hkept
          have hnoamp : ∀ r ∈ kept.map (fun p => p.1 ++ '=' :: p.2), ('&' : Char) ∉ r := by
            intro r hr
            obtain ⟨p, hp, rfl⟩ := List.mem_map.mp hr
            obtain ⟨h1, h2, -⟩ := queryParams_props query p (hmemkept p hp)
            intro hc
            rcases List.mem_append.mp hc with hc1 | hc2
            · exact h1 hc1
            · rcases List.mem_cons.mp hc2 with hc3 | hc4
              · exact absurd hc3 (by decide)
              · exact h2 hc4
          unfold queryParams
          rw [hRdef, splitOnChar_intercalate '&' _ hmap_ne hnoamp]
          have hfil : ∀ r ∈ kept.map (fun p => p.1 ++ '=' :: p.2), (!r.isEmpty) = true := by
            intro r hr
            obtain ⟨p, hp, rfl⟩ := List.mem_map.mp hr
            simp
          rw [List.filter_eq_self.mpr hfil, List.map_map]
          have hid : ∀ p ∈ kept, (pairOfParam ∘ fun p => p.1 ++ '=' :: p.2) p = p := by
            intro p hp
            obtain ⟨-, -, h3⟩ := queryParams_props query p (hmemkept p hp)
            simp [Function.comp, pairOfParam_render p.1 p.2 h3]
          rw [List.map_congr_left hid]
          simp
        split at h
        · rw [Option.some.injEq] at h
          rw [← h]
          show (Option.map _ (List.find? (fun p => p.1 == "secret".toList)
            (queryParams R))) = none
          rw [hqR]
          have : List.find? (fun p => p.1 == "secret".toList) kept = none := by
            rw [List.find?_eq_none]
            intro p hp
            have := (List.mem_filter.mp (hkeptdef ▸ hp)).2
            simpa using this
          rw [this]
          rfl
        · exact Option.noConfusion h

/-- C6: `connectWithBunker` with `stripSecret = true` (under the faithful
models of the URL library and of `parseBunkerInput`) always opens the channel
with a pointer carrying NO secret — in particular for URLs containing a
`secret` query parameter; for every successfully parsed bunker URL (any
parse/url library) the relay list of the pointer used is non-empty, the
well-known default set substituted when the URL carries no relay parameters;
and the channel is opened directly against the given peer
(`BunkerSigner.fromBunker` with that pointer, whose pubkey is adopted
directly) without a handshake wait. -/
theorem connectWithBunker_policy :
    (∀ st url st' bp,
      connectWithBunker parseBunkerInput (fun u => some (urlDeleteSecret u))
          st url true = .ok (st', bp) →
      bp.secret = none) ∧
    (∀ parseB urlLib st url strip st' bp,
      connectWithBunker parseB urlLib st url strip = .ok (st', bp) →
      bp.relays ≠ [] ∧
      (∀ bp0, parseB (if strip then ((urlLib url).getD url) else url) = some bp0 →
        bp0.relays = [] → bp.relays = nip46RelaysArray)) ∧
    (∀ parseB urlLib st url strip st' bp,
      connectWithBunker parseB urlLib st url strip = .ok (st', bp) →
      st'.signer = some (SignerHandle.fromBunker bp) ∧
      st'.userPubkey = some bp.pubkey ∧
      st' = applyBunkerPointer st bp) := by
  refine ⟨fun st url st' bp h => ?_, fun parseB urlLib st url strip st' bp h => ?_,
    fun parseB urlLib st url strip st' bp h => ?_⟩
  · unfold connectWithBunker at h
    simp only [Option.getD_some, if_true] at h
    cases hp : parseBunkerInput (urlDeleteSecret url) with
    | none =>
      rw [hp] at h
      exact Except.noConfusion h
    | some bp0 =>
      rw [hp] at h
      simp only [Except.ok.injEq, Prod.mk.injEq] at h
      obtain ⟨-, h2⟩ := h
      have h0 := urlDeleteSecret_no_secret url bp0 hp
      rw [← h2]
      split <;> exact h0
  · simp only [connectWithBunker] at h
    cases hp : parseB (if strip = true then (urlLib url).getD url else url) with
    | none =>
      rw [hp] at h
      exact Except.noConfusion h
    | some bp0 =>
      rw [hp] at h
      simp only [Except.ok.injEq, Prod.mk.injEq] at h
      obtain ⟨-, h2⟩ := h
      constructor
      · rw [← h2]
        split
        · simp [nip46RelaysArray]
        · simp_all [List.isEmpty_iff]
      · intro bp1 hbp1 hrel
        rw [Option.some.injEq] at hbp1
        subst hbp1
        rw [← h2, if_pos (by simp [List.isEmpty_iff, hrel])]
  · simp only [connectWithBunker] at h
    cases hp : parseB (if strip = true then (urlLib url).getD url else url) with
    | none =>
      rw [hp] at h
      exact Except.noConfusion h
    | some bp0 =>
      rw [hp] at h
      simp only [Except.ok.injEq, Prod.mk.injEq] at h
      obtain ⟨h1, h2⟩ := h
      subst h2
      rw [← h1]
      exact ⟨rfl, rfl, rfl⟩

/-- Witness for C6: the URL `c6Url` carries `&secret=topsecret`; the channel
is opened with a pointer carrying no secret and a non-empty relay list. -/
theorem connectWithBunker_policy_witness :
    (⟨hex64a, ["wss%3A%2F%2Frelay.primal.net"], none⟩ : BunkerPointer).secret = none ∧
    (⟨hex64a, ["wss%3A%2F%2Frelay.primal.net"], none⟩ : BunkerPointer).relays ≠ [] :=
  ⟨connectWithBunker_policy.1 (mkManager c5Session) c6Url
      (applyBunkerPointer (mkManager c5Session)
        ⟨hex64a, ["wss%3A%2F%2Frelay.primal.net"], none⟩)
      ⟨hex64a, ["wss%3A%2F%2Frelay.primal.net"], none⟩ rfl,
    (connectWithBunker_policy.2.1 parseBunkerInput (fun u => some (urlDeleteSecret u))
      (mkManager c5Session) c6Url true
      (applyBunkerPointer (mkManager c5Session)
        ⟨hex64a, ["wss%3A%2F%2Frelay.primal.net"], none⟩)
      ⟨hex64a, ["wss%3A%2F%2Frelay.primal.net"], none⟩ rfl).1⟩

/-- C7: after every successful `attemptConnection`, the derived bunker URI is
exactly `bunker://<signer service pubkey>?<percent-encoded relay list>&secret=<session secret>` —
it embeds the signer SERVICE pubkey, and (whenever the two identities differ)
NOT the learned user pubkey, which is recorded separately. -/
theorem attemptConnection_bunker_uri (st : ManagerState) (conn : TransportConn) :
    (applyAttemptSuccess st conn).bunkerString =
      some ("bunker://" ++ conn.servicePubkey ++ "?" ++
        "relay=wss%3A%2F%2Frelay.primal.net&relay=wss%3A%2F%2Frelay.damus.io&relay=wss%3A%2F%2Fnos.lol&relay=wss%3A%2F%2Frelay.nostr.band" ++
        "&secret=" ++ st.session.secret) ∧
    (applyAttemptSuccess st conn).userPubkey = some conn.userPubkey ∧
    (conn.servicePubkey ≠ conn.userPubkey →
      (applyAttemptSuccess st conn).bunkerString ≠
        some ("bunker://" ++ conn.userPubkey ++ "?" ++
          "relay=wss%3A%2F%2Frelay.primal.net&relay=wss%3A%2F%2Frelay.damus.io&relay=wss%3A%2F%2Fnos.lol&relay=wss%3A%2F%2Frelay.nostr.band" ++
          "&secret=" ++ st.session.secret)) := by
  have hq : relayQuery nip46RelaysArray =
      "relay=wss%3A%2F%2Frelay.primal.net&relay=wss%3A%2F%2Frelay.damus.io&relay=wss%3A%2F%2Fnos.lol&relay=wss%3A%2F%2Frelay.nostr.band" := rfl
  refine ⟨?_, rfl, ?_⟩
  · show some (bunkerUriOfHandshake conn.servicePubkey st.session.secret) = _
    rw [bunkerUriOfHandshake, hq]
  · intro hne h
    show False
    rw [show (applyAttemptSuccess st conn).bunkerString =
      some (bunkerUriOfHandshake conn.servicePubkey st.session.secret) from rfl] at h
    rw [Option.some.injEq, bunkerUriOfHandshake, hq] at h
    have hl := congrArg String.toList h
    simp only [show ∀ a b : String, (a ++ b).toList = a.toList ++ b.toList from
      fun a b => rfl, List.append_assoc] at hl
    have h1 := List.append_cancel_left hl
    have h2 := List.append_cancel_right h1
    exact hne (String.ext h2)

/-- Witness for C7: with distinct service (`hex64a`) and user (`hex64b`)
pubkeys, the derived URI does not embed the user pubkey. -/
theorem attemptConnection_bunker_uri_witness :
    (applyAttemptSuccess (mkManager c5Session) c10Conn).bunkerString ≠
      some ("bunker://" ++ c10Conn.userPubkey ++ "?" ++
        "relay=wss%3A%2F%2Frelay.primal.net&relay=wss%3A%2F%2Frelay.damus.io&relay=wss%3A%2F%2Fnos.lol&relay=wss%3A%2F%2Frelay.nostr.band" ++
        "&secret=" ++ (mkManager c5Session).session.secret) :=
  (attemptConnection_bunker_uri (mkManager c5Session) c10Conn).2.2 (by decide)

/-- C9: no operation of the manager ever resets the abort flag — it is
monotone under every single operation and under every finite sequence of
operations (`abort` and `disconnect` set it) — and once it is set every
subsequent `waitForConnection` call rejects (with the generic retries-failed
error, since no attempt recorded one) without performing a single
`attemptConnection` call: the instance cannot be reused for the handshake. -/
theorem abort_flag_monotone :
    (∀ (op : ManagerOp) (st : ManagerState), st.isAborted = true →
      (applyManagerOp op st).isAborted = true) ∧
    (∀ (ops : List ManagerOp) (st : ManagerState), st.isAborted = true →
      (ops.foldl (fun s op => applyManagerOp op s) st).isAborted = true) ∧
    (∀ st, (abort st).isAborted = true ∧ (disconnect st).isAborted = true) ∧
    (∀ attempts ab, ab 0 = true →
      waitForConnection attempts ab = (WaitResult.failure maxRetriesMsg, []) ∧
      countAttempts (waitForConnection attempts ab).2 = 0) := by
  have hop : ∀ op st, st.isAborted = true → (applyManagerOp op st).isAborted = true := by
    intro op st h
    cases op <;>
      simp [applyManagerOp, setOnAuth, applyAttemptSuccess, applyBunkerPointer,
        abort, disconnect, h]
  refine ⟨hop, ?_, fun st => ⟨rfl, rfl⟩, fun attempts ab h => ?_⟩
  · intro ops
    induction ops with
    | nil => intro st h; exact h
    | cons op ops ih =>
      intro st h
      exact ih (applyManagerOp op st) (hop op st h)
  · refine ⟨waitForConnection_aborted attempts ab h, ?_⟩
    rw [waitForConnection_aborted attempts ab h]
    rfl

/-- Witness for C9: an aborted manager stays aborted through a sequence of
operations, and an always-set abort flag yields rejection with no attempts. -/
theorem abort_flag_monotone_witness :
    (([ManagerOp.setOnAuthOp, ManagerOp.attemptReset,
        ManagerOp.attemptSuccess c10Conn]).foldl
      (fun s op => applyManagerOp op s) (abort (mkManager c5Session))).isAborted = true ∧
    waitForConnection c1Att (fun _ => true) = (WaitResult.failure maxRetriesMsg, []) :=
  ⟨abort_flag_monotone.2.1
      [ManagerOp.setOnAuthOp, ManagerOp.attemptReset, ManagerOp.attemptSuccess c10Conn]
      (abort (mkManager c5Session)) rfl,
    (abort_flag_monotone.2.2.2 c1Att (fun _ => true) rfl).1⟩

/-- C10: after every successful `connectWithBunker` — and hence after
`reconnectFromSession`, which delegates to it with the stored URI and
`stripSecret = true` — `getPublicKey` returns the pubkey taken from the
parsed bunker pointer (the signer service pubkey embedded in the URI), not a
user pubkey queried from the remote signer, whereas `attemptConnection`
records the remotely queried user pubkey; concretely, reconnecting via the
bunker URI derived from a handshake whose service pubkey (`hex64a`) differs
from its learned user pubkey (`hex64b`) reports `hex64a`. -/
theorem getPublicKey_after_bunker_connect :
    (∀ parseB urlLib st url strip st' bp,
      connectWithBunker parseB urlLib st url strip = .ok (st', bp) →
      getPublicKey st' = some bp.pubkey) ∧
    (∀ parseB urlLib st uri, st.session.bunkerUri = some uri →
      reconnectFromSession parseB urlLib st = connectWithBunker parseB urlLib st uri true) ∧
    (∀ st conn, getPublicKey (applyAttemptSuccess st conn) = some conn.userPubkey) ∧
    (connectWithBunker parseBunkerInput (fun u => some (urlDeleteSecret u))
        (mkManager c5Session) (bunkerUriOfHandshake hex64a c5Session.secret) true =
      Except.ok
        (applyBunkerPointer (mkManager c5Session)
          ⟨hex64a,
            ["wss%3A%2F%2Frelay.primal.net", "wss%3A%2F%2Frelay.damus.io",
              "wss%3A%2F%2Fnos.lol", "wss%3A%2F%2Frelay.nostr.band"], none⟩,
          ⟨hex64a,
            ["wss%3A%2F%2Frelay.primal.net", "wss%3A%2F%2Frelay.damus.io",
              "wss%3A%2F%2Fnos.lol", "wss%3A%2F%2Frelay.nostr.band"], none⟩) ∧
      getPublicKey
          (applyBunkerPointer (mkManager c5Session)
            ⟨hex64a,
              ["wss%3A%2F%2Frelay.primal.net", "wss%3A%2F%2Frelay.damus.io",
                "wss%3A%2F%2Fnos.lol", "wss%3A%2F%2Frelay.nostr.band"], none⟩) =
        some hex64a ∧
      hex64a ≠ c10Conn.userPubkey ∧
      getPublicKey (applyAttemptSuccess (mkManager c5Session) c10Conn) =
        some c10Conn.userPubkey) := by
  refine ⟨fun parseB urlLib st url strip st' bp h =>
      ((connectWithBunker_policy.2.2 parseB urlLib st url strip st' bp h).2.1), ?_,
    fun st conn => rfl, rfl, rfl, by decide, rfl⟩
  intro parseB urlLib st uri h
  unfold reconnectFromSession
  rw [h]

/-- Witness for C10: the pointer-pubkey rule applied at the concrete
reconnection of the divergence scenario. -/
theorem getPublicKey_after_bunker_connect_witness :
    getPublicKey
        (applyBunkerPointer (mkManager c5Session)
          ⟨hex64a,
            ["wss%3A%2F%2Frelay.primal.net", "wss%3A%2F%2Frelay.damus.io",
              "wss%3A%2F%2Fnos.lol", "wss%3A%2F%2Frelay.nostr.band"], none⟩) =
      some (⟨hex64a,
        ["wss%3A%2F%2Frelay.primal.net", "wss%3A%2F%2Frelay.damus.io",
          "wss%3A%2F%2Fnos.lol", "wss%3A%2F%2Frelay.nostr.band"], none⟩ :
          BunkerPointer).pubkey :=
  getPublicKey_after_bunker_connect.1 parseBunkerInput
    (fun u => some (urlDeleteSecret u)) (mkManager c5Session)
    (bunkerUriOfHandshake hex64a c5Session.secret) true
    (applyBunkerPointer (mkManager c5Session)
      ⟨hex64a,
        ["wss%3A%2F%2Frelay.primal.net", "wss%3A%2F%2Frelay.damus.io",
          "wss%3A%2F%2Fnos.lol", "wss%3A%2F%2Frelay.nostr.band"], none⟩)
    ⟨hex64a,
      ["wss%3A%2F%2Frelay.primal.net", "wss%3A%2F%2Frelay.damus.io",
        "wss%3A%2F%2Fnos.lol", "wss%3A%2F%2Frelay.nostr.band"], none⟩ rfl

end Nip46
